import Mathlib

/-
Verification of the WindsurfUnityMCP broker
(src/UnityMcpServer/src/server.py).

The file gives a shallow embedding of the `ConnectionManager` class
(`connect`, `disconnect`, `send_to_unity`, `handle_unity_response`),
of the `/ws` websocket endpoint's routing and client-request handling,
and of the HTTP function routes' outcome construction, and proves the
correlation / timeout / registry properties stated about them.

Modelling conventions:
- A websocket channel is identified by a `Nat`.
- A JSON wire message is the structure `Msg`, restricted to the fields
  the broker actually reads (`id`, `function`, `params`, `success`,
  `data`, `message`, `error`); `params` and `data` are opaque.
- An `asyncio.Future` is identified by a `Nat` and carried in an
  explicit future table; its state is `FutState`.
- Python dicts are association lists with unique keys, with
  `dictLookup` / `dictInsert` / `dictErase` mirroring `d[k]`,
  `d[k] = v` and `del d[k]` / `d.pop(k)`.
- The coroutine `send_to_unity` is split at its await point into
  `sendToUnityStart` (everything before `asyncio.wait_for`) and the two
  ways the wait can finish: resolution by `handleUnityResponse`, or the
  `asyncio.TimeoutError` branch `sendToUnityTimeout`.
-/

namespace WindsurfUnityMcp

/-- Wire message: a JSON object restricted to the fields the server reads.
Absent keys are `none`. `params` and `data` are opaque payloads. -/
structure Msg where
  id : Option String := none
  function : Option String := none
  params : Option Nat := none
  success : Option Bool := none
  data : Option Nat := none
  message : Option String := none
  error : Option String := none
deriving DecidableEq, Repr

/-- State of an `asyncio.Future` used as a request waiter: unresolved,
resolved by `future.set_result(response)`, or cancelled by the timeout
of `asyncio.wait_for`. -/
inductive FutState where
  | unresolved : FutState
  | resolved : Msg → FutState
  | timedOut : FutState
deriving DecidableEq, Repr

/-- Lookup in a Python dict modelled as an association list
(first binding wins; dict keys are unique). -/
def dictLookup {K V : Type} [DecidableEq K] : List (K × V) → K → Option V
  | [], _ => none
  | (k', v) :: rest, k => if k' = k then some v else dictLookup rest k

/-- Python `d[k] = v`: replace the first binding for `k` in place if one
exists, else append a new binding (matching dict insertion-order
semantics). -/
def dictInsert {K V : Type} [DecidableEq K] : List (K × V) → K → V → List (K × V)
  | [], k, v => [(k, v)]
  | (k', v') :: rest, k, v =>
      if k' = k then (k, v) :: rest else (k', v') :: dictInsert rest k v

/-- Python `del d[k]` / `d.pop(k)`: remove the binding for `k`
(on a list with duplicate keys this removes all of them; the broker's
dicts always have unique keys). -/
def dictErase {K V : Type} [DecidableEq K] : List (K × V) → K → List (K × V)
  | [], _ => []
  | (k', v) :: rest, k =>
      if k' = k then dictErase rest k else (k', v) :: dictErase rest k

theorem dictLookup_insert_self {K V : Type} [DecidableEq K]
    (d : List (K × V)) (k : K) (v : V) :
    dictLookup (dictInsert d k v) k = some v := by
  induction d with
  | nil => simp [dictInsert, dictLookup]
  | cons p rest ih =>
    obtain ⟨k', v'⟩ := p
    by_cases h : k' = k
    · simp [dictInsert, h, dictLookup]
    · simp [dictInsert, h, dictLookup, ih]

theorem dictLookup_insert_ne {K V : Type} [DecidableEq K]
    (d : List (K × V)) (k k₂ : K) (v : V) (h : k₂ ≠ k) :
    dictLookup (dictInsert d k v) k₂ = dictLookup d k₂ := by
  induction d with
  | nil => simp [dictInsert, dictLookup, Ne.symm h]
  | cons p rest ih =>
    obtain ⟨k', v'⟩ := p
    by_cases hk : k' = k
    · subst hk
      simp [dictInsert, dictLookup, Ne.symm h]
    · simp [dictInsert, hk, dictLookup, ih]

theorem dictLookup_erase_self {K V : Type} [DecidableEq K]
    (d : List (K × V)) (k : K) :
    dictLookup (dictErase d k) k = none := by
  induction d with
  | nil => simp [dictErase, dictLookup]
  | cons p rest ih =>
    obtain ⟨k', v'⟩ := p
    by_cases h : k' = k
    · simp [dictErase, h, ih]
    · simp [dictErase, h, dictLookup, ih]

theorem dictLookup_erase_ne {K V : Type} [DecidableEq K]
    (d : List (K × V)) (k k₂ : K) (h : k₂ ≠ k) :
    dictLookup (dictErase d k) k₂ = dictLookup d k₂ := by
  induction d with
  | nil => simp [dictErase]
  | cons p rest ih =>
    obtain ⟨k', v'⟩ := p
    by_cases hk : k' = k
    · subst hk
      simp [dictErase, dictLookup, Ne.symm h, ih]
    · simp [dictErase, hk, dictLookup, ih]

theorem mem_of_mem_dictErase {K V : Type} [DecidableEq K]
    {d : List (K × V)} {k : K} {p : K × V} (h : p ∈ dictErase d k) :
    p ∈ d := by
  induction d with
  | nil => simp [dictErase] at h
  | cons q rest ih =>
    obtain ⟨k', v'⟩ := q
    by_cases hk : k' = k
    · simp only [dictErase, if_pos hk] at h
      exact List.mem_cons_of_mem _ (ih h)
    · simp only [dictErase, if_neg hk] at h
      rcases List.mem_cons.mp h with h | h
      · exact h ▸ List.mem_cons_self _ _
      · exact List.mem_cons_of_mem _ (ih h)

theorem mem_dictInsert {K V : Type} [DecidableEq K]
    {d : List (K × V)} {k : K} {v : V} {p : K × V}
    (h : p ∈ dictInsert d k v) : p = (k, v) ∨ p ∈ d := by
  induction d with
  | nil => simpa [dictInsert] using h
  | cons q rest ih =>
    obtain ⟨k', v'⟩ := q
    by_cases hk : k' = k
    · simp only [dictInsert, if_pos hk] at h
      rcases List.mem_cons.mp h with h | h
      · exact Or.inl h
      · exact Or.inr (List.mem_cons_of_mem _ h)
    · simp only [dictInsert, if_neg hk] at h
      rcases List.mem_cons.mp h with h | h
      · exact Or.inr (h ▸ List.mem_cons_self _ _)
      · rcases ih h with h | h
        · exact Or.inl h
        · exact Or.inr (List.mem_cons_of_mem _ h)

/-- Entry of `ConnectionManager.pending_requests`: the waiter future created
for the request (`future = asyncio.Future(); self.pending_requests[request_id]
= future`), identified by its table key, plus the ghost flag `generated`
recording whether the request's correlation identifier was broker-generated
(the message carried no `id`) rather than caller-supplied. -/
structure PendingEntry where
  fid : Nat
  generated : Bool
deriving DecidableEq, Repr

/-- State of one `ConnectionManager` instance, plus the bookkeeping the
embedding needs: the future table standing for the `asyncio.Future` objects,
the allocation counter `nextFid` for fresh futures and fresh message objects,
and the ghost log `sent` of every `send_json` performed on a channel
(used to state that an operation produced no executor traffic). -/
structure ManagerState where
  active_connections : List Nat := []
  unity_connection : Option Nat := none
  pending_requests : List (String × PendingEntry) := []
  futures : List (Nat × FutState) := []
  nextFid : Nat := 0
  sent : List (Nat × Msg) := []
deriving DecidableEq, Repr

/-- Models the correlation identifier produced by `str(id(message))` when the
inbound message carries no `id`. CPython guarantees that `id` is unique among
simultaneously existing objects, and a message object stays alive (referenced
by its suspended `send_to_unity` frame) for as long as its request is pending,
so each generated identifier is fresh relative to every identifier generated
for a still-pending request. The embedding realises that guarantee by drawing
the identifier from the allocation counter through an injective encoding into
`String`; the concrete glyphs of the address string are not modelled. -/
def mkGenId (n : Nat) : String :=
  String.mk ('o' :: 'b' :: 'j' :: List.replicate n '*')

theorem mkGenId_injective : Function.Injective mkGenId := by
  intro m n h
  have h1 : ('o' :: 'b' :: 'j' :: List.replicate m '*') =
      ('o' :: 'b' :: 'j' :: List.replicate n '*') := congrArg String.data h
  have h2 := congrArg List.length h1
  simpa using h2

/-- Embeds `ConnectionManager.connect` (lines 49-56): append the channel to
`active_connections`; if the declared `client_type` is `"unity"`, store the
channel as `unity_connection` (replacing any prior executor). -/
def connect (st : ManagerState) (ch : Nat) (client_type : String) : ManagerState :=
  let st1 := { st with active_connections := st.active_connections ++ [ch] }
  if client_type = "unity" then { st1 with unity_connection := some ch } else st1

/-- Embeds `ConnectionManager.disconnect` (lines 58-64): remove the channel
from `active_connections` (`list.remove`, which raises before mutating when
the channel is absent, leaving the state unchanged); if the removed channel
is the current `unity_connection`, clear that slot. -/
def disconnect (st : ManagerState) (ch : Nat) : ManagerState :=
  if ch ∈ st.active_connections then
    let st1 := { st with active_connections := st.active_connections.erase ch }
    if st1.unity_connection = some ch then { st1 with unity_connection := none }
    else st1
  else st

/-- Embeds the synchronous prefix of `ConnectionManager.send_to_unity`
(lines 66-78), everything before the coroutine suspends in
`asyncio.wait_for`: fail with the `"No Unity connection available"` exception
when no executor is registered; otherwise take the message's `id` or generate
one from the message object's identity, overwrite `message["id"]`, create a
fresh future, store it in `pending_requests`, and `send_json` the message on
the executor channel. Returns the updated state and the correlation
identifier the caller is now waiting on. -/
def sendToUnityStart (st : ManagerState) (msg : Msg) :
    Except String (ManagerState × String) :=
  match st.unity_connection with
  | none => .error "No Unity connection available"
  | some uch =>
    let request_id := match msg.id with
      | some i => i
      | none => mkGenId st.nextFid
    let msg1 := { msg with id := some request_id }
    let fid := st.nextFid
    .ok ({ st with
            pending_requests :=
              dictInsert st.pending_requests request_id ⟨fid, msg.id.isNone⟩,
            futures := dictInsert st.futures fid .unresolved,
            nextFid := st.nextFid + 1,
            sent := st.sent ++ [(uch, msg1)] }, request_id)

/-- Embeds `ConnectionManager.handle_unity_response` (lines 88-95): read the
response's `id`; when a pending request with that identifier exists, pop it
from `pending_requests` and, if its future is not yet done, resolve the
future with the whole response object; otherwise only log the unknown
identifier and leave the state untouched. -/
def handleUnityResponse (st : ManagerState) (resp : Msg) : ManagerState :=
  match resp.id with
  | none => st
  | some request_id =>
    match dictLookup st.pending_requests request_id with
    | none => st
    | some entry =>
      let st1 := { st with
        pending_requests := dictErase st.pending_requests request_id }
      match dictLookup st1.futures entry.fid with
      | some FutState.unresolved =>
          { st1 with futures := dictInsert st1.futures entry.fid (.resolved resp) }
      | _ => st1

/-- Embeds the `asyncio.TimeoutError` branch of `send_to_unity`
(lines 80-86) for a caller awaiting future `fid` under identifier
`request_id`: `asyncio.wait_for` cancels the awaited future, then the
handler runs `del self.pending_requests[request_id]` and raises
`Exception("Request to Unity timed out")`; when the identifier is no longer
a key of the dict, `del` instead raises `KeyError(request_id)`, modelled here with the text
`"KeyError: "` followed by the identifier. Returns the updated state and
the text of the exception the caller observes. -/
def sendToUnityTimeout (st : ManagerState) (request_id : String) (fid : Nat) :
    ManagerState × String :=
  let st1 := { st with futures := dictInsert st.futures fid .timedOut }
  if (dictLookup st1.pending_requests request_id).isSome then
    ({ st1 with pending_requests := dictErase st1.pending_requests request_id },
      "Request to Unity timed out")
  else
    (st1, "KeyError: " ++ request_id)

/-- One observable broker event, used to characterise the reachable states of
a `ConnectionManager`. -/
inductive Event where
  | evConnect : Nat → String → Event
  | evDisconnect : Nat → Event
  | evSend : Msg → Event
  | evResponse : Msg → Event
  | evTimeout : String → Nat → Event
deriving DecidableEq, Repr

/-- State transition of one event; failed submissions and timeouts whose
future is already done leave the state unchanged, exactly as the
corresponding code paths do. -/
def applyEvent (st : ManagerState) (e : Event) : ManagerState :=
  match e with
  | .evConnect ch t => connect st ch t
  | .evDisconnect ch => disconnect st ch
  | .evSend msg =>
    match sendToUnityStart st msg with
    | .ok (st', _) => st'
    | .error _ => st
  | .evResponse resp => handleUnityResponse st resp
  | .evTimeout request_id fid =>
    match dictLookup st.futures fid with
    | some FutState.unresolved => (sendToUnityTimeout st request_id fid).1
    | _ => st

/-- State reached by running a list of events from a fresh
`ConnectionManager` (the module-level `manager = ConnectionManager()`). -/
def run (evs : List Event) : ManagerState :=
  evs.foldl applyEvent {}

/-- Per-connection state of one `websocket_endpoint` coroutine: the channel
and the `client_type` string captured once from the handshake's first
message (line 439) and never re-read afterwards. -/
structure WsSession where
  ch : Nat
  client_type : String
deriving DecidableEq, Repr

/-- Destination chosen for an inbound message in the endpoint's receive
loop. -/
inductive Route where
  | toResolve : Route
  | toSubmit : Route
deriving DecidableEq, Repr

/-- Embeds the routing decision of `websocket_endpoint` (line 448): a
message is handed to `manager.handle_unity_response` exactly when the
session's handshake-captured `client_type` equals `"unity"`; otherwise it is
handled as a client request. -/
def routeMessage (client_type : String) : Route :=
  if client_type = "unity" then .toResolve else .toSubmit

/-- Routing applied to a session's inbound messages. -/
def sessionRoute (s : WsSession) : Route :=
  routeMessage s.client_type

/-- Truthiness test `if not function_name` applied to
`message.get("function")`: fires when the key is absent (`None`) or holds
the empty string. -/
def functionNameFalsy (f : Option String) : Bool :=
  match f with
  | none => true
  | some s => s = ""

/-- Reply sent on the missing-function fast path (lines 457-463). -/
def missingFunctionReply (origId : Option String) : Msg :=
  { id := origId, success := some false, error := some "Missing function name" }

/-- Disposition of one client message in the endpoint's loop: an immediate
reply without executor traffic, a request now pending under the returned
identifier, or a reply built from an exception that `send_to_unity` raised
before suspending. -/
inductive ClientDisposition where
  | replyNow : Msg → ClientDisposition
  | forwarded : String → ClientDisposition
  | submitFailed : Msg → ClientDisposition
deriving DecidableEq, Repr

/-- Embeds the client branch of the endpoint's receive loop (lines 452-467)
up to its suspension point: a message whose `function` field is falsy gets
the `missingFunctionReply` and is never forwarded; otherwise the message is
passed to `send_to_unity`, whose immediate failure is echoed back as
`\x7b"id": ..., "success": false, "error": str(e)\x7d` by the
`except` clause (lines 469-475), and whose success leaves the request
pending. -/
def wsClientStep (st : ManagerState) (msg : Msg) :
    ManagerState × ClientDisposition :=
  if functionNameFalsy msg.function then
    (st, .replyNow (missingFunctionReply msg.id))
  else
    match sendToUnityStart st msg with
    | .error e =>
        (st, .submitFailed { id := msg.id, success := some false, error := some e })
    | .ok (st', request_id) => (st', .forwarded request_id)

/-- Embeds the reply a websocket client finally receives for a forwarded
request (lines 466-475): when `send_to_unity` returns a response it is
relayed verbatim by `websocket.send_json(response)`; when it raises, the
`except` clause sends `\x7b"id": ..., "success": false,
"error": str(e)\x7d`. -/
def wsRelayReply (origId : Option String) (outcome : Except String Msg) : Msg :=
  match outcome with
  | .ok resp => resp
  | .error e => { id := origId, success := some false, error := some e }

/-- Pydantic model `FunctionResponse` (lines 189-193): `success` is a
required field, the rest are optional. -/
structure FunctionResponse where
  success : Bool
  message : Option String := none
  data : Option Nat := none
  error : Option String := none
deriving DecidableEq, Repr

/-- Validation performed by `FunctionResponse(**response)`: fails when the
response carries no `success` value (pydantic raises a validation error for
the missing required field, caught by the route's `except` clause);
unknown keys are ignored. -/
def parseFunctionResponse (resp : Msg) : Except String FunctionResponse :=
  match resp.success with
  | some b =>
      .ok { success := b, message := resp.message, data := resp.data,
            error := resp.error }
  | none => .error "validation error for FunctionResponse: success field required"

/-- Embeds the body shared by every HTTP function route (for example
`execute_menu_item`, lines 338-349): inside `try`, await `send_to_unity`
and build `FunctionResponse(**response)`; any exception raised by either
step is caught and turned into `FunctionResponse(success=False,
error=str(e))`. The argument is the outcome of the awaited submission. -/
def httpRouteOutcome (outcome : Except String Msg) : FunctionResponse :=
  match outcome with
  | .error e => { success := false, error := some e }
  | .ok resp =>
    match parseFunctionResponse resp with
    | .ok fr => fr
    | .error e => { success := false, error := some e }

/-- Message submitted by an HTTP function route (for example lines 342-345):
a fresh object with only `function` and `params`, and in particular no
caller-supplied `id`. -/
def httpRequestMsg (fname : String) (ps : Nat) : Msg :=
  { function := some fname, params := some ps }

/-- Timeout passed to `asyncio.wait_for` (line 82): 30 time units per
request, not configurable per call. -/
def requestTimeoutSeconds : Nat := 30

theorem dictLookup_mem {K V : Type} [DecidableEq K]
    {d : List (K × V)} {k : K} {v : V} (h : dictLookup d k = some v) :
    (k, v) ∈ d := by
  induction d with
  | nil => simp [dictLookup] at h
  | cons p rest ih =>
    obtain ⟨k', v'⟩ := p
    by_cases hk : k' = k
    · subst hk
      have hv : v' = v := by simpa [dictLookup] using h
      subst hv
      exact List.mem_cons_self _ _
    · simp only [dictLookup, if_neg hk] at h
      exact List.mem_cons_of_mem _ (ih h)

theorem dictErase_sublist {K V : Type} [DecidableEq K]
    (d : List (K × V)) (k : K) : (dictErase d k).Sublist d := by
  induction d with
  | nil => simp [dictErase]
  | cons p rest ih =>
    obtain ⟨k', v'⟩ := p
    by_cases hk : k' = k
    · simp only [dictErase, if_pos hk]
      exact ih.cons _
    · simp only [dictErase, if_neg hk]
      exact ih.cons₂ _

theorem mem_keys_dictInsert {K V : Type} [DecidableEq K]
    {d : List (K × V)} {k a : K} {v : V}
    (h : a ∈ (dictInsert d k v).map Prod.fst) :
    a = k ∨ a ∈ d.map Prod.fst := by
  rcases List.mem_map.mp h with ⟨p, hp, hfst⟩
  rcases mem_dictInsert hp with h1 | h1
  · subst h1
    exact Or.inl hfst.symm
  · exact Or.inr (hfst ▸ List.mem_map_of_mem Prod.fst h1)

theorem keys_nodup_dictInsert {K V : Type} [DecidableEq K]
    {d : List (K × V)} (k : K) (v : V)
    (h : (d.map Prod.fst).Nodup) :
    ((dictInsert d k v).map Prod.fst).Nodup := by
  induction d with
  | nil => simp [dictInsert]
  | cons p rest ih =>
    obtain ⟨k', v'⟩ := p
    simp only [List.map_cons, List.nodup_cons] at h
    by_cases hk : k' = k
    · subst hk
      simpa [dictInsert, List.nodup_cons] using h
    · have hnd := ih h.2
      simp only [dictInsert, if_neg hk, List.map_cons, List.nodup_cons]
      refine ⟨fun hmem => ?_, hnd⟩
      rcases mem_keys_dictInsert hmem with h1 | h1
      · exact hk h1
      · exact h.1 h1

theorem keys_nodup_dictErase {K V : Type} [DecidableEq K]
    {d : List (K × V)} (k : K)
    (h : (d.map Prod.fst).Nodup) :
    ((dictErase d k).map Prod.fst).Nodup :=
  ((dictErase_sublist d k).map Prod.fst).nodup h

/-- C3 (claim): submitting a request while no executor channel is
registered fails immediately with the no-executor error, sends nothing on
any channel, and leaves the pending-request map (indeed the whole manager
state) unchanged. -/
theorem send_to_unity_no_executor (st : ManagerState) (msg : Msg)
    (h : st.unity_connection = none) :
    sendToUnityStart st msg = .error "No Unity connection available" ∧
    applyEvent st (.evSend msg) = st := by
  refine ⟨?_, ?_⟩
  · simp [sendToUnityStart, h]
  · simp [applyEvent, sendToUnityStart, h]

/-- C3 witness: a concrete submission against the fresh manager, which has
no executor registered. -/
theorem send_to_unity_no_executor_witness :
    sendToUnityStart {} { function := some "ping" } =
      .error "No Unity connection available" ∧
    applyEvent {} (.evSend { function := some "ping" }) = ({} : ManagerState) :=
  send_to_unity_no_executor {} { function := some "ping" } rfl

/-- C6 (claim): a client websocket message that lacks a function name is
answered with a success-false reply carrying the message's id and the text
`"Missing function name"`, and the manager state — in particular the sent
log and the pending map — is untouched, so nothing reaches the executor. -/
theorem ws_missing_function_name (st : ManagerState) (msg : Msg)
    (h : msg.function = none) :
    wsClientStep st msg =
      (st, .replyNow { id := msg.id, success := some false,
                       error := some "Missing function name" }) := by
  simp [wsClientStep, functionNameFalsy, h, missingFunctionReply]

/-- C6 witness: a concrete function-less message while an executor is even
connected; the reply is the missing-function error and the state is
unchanged. -/
theorem ws_missing_function_name_witness :
    wsClientStep (connect {} 7 "unity") { id := some "q1" } =
      (connect {} 7 "unity",
        .replyNow { id := some "q1", success := some false,
                    error := some "Missing function name" }) :=
  ws_missing_function_name (connect {} 7 "unity") { id := some "q1" } rfl

/-- C8 (claim): disconnecting a connected channel removes it from the
active connections, clears the executor slot exactly when that channel was
the current executor, and leaves the pending-request map and every waiter
future unchanged — outstanding requests keep waiting for their own
deadlines. -/
theorem disconnect_frame (st : ManagerState) (ch : Nat)
    (hmem : ch ∈ st.active_connections)
    (hnd : st.active_connections.Nodup) :
    ch ∉ (disconnect st ch).active_connections ∧
    (disconnect st ch).unity_connection =
      (if st.unity_connection = some ch then none else st.unity_connection) ∧
    (disconnect st ch).pending_requests = st.pending_requests ∧
    (disconnect st ch).futures = st.futures ∧
    (disconnect st ch).sent = st.sent := by
  simp only [disconnect, if_pos hmem]
  by_cases hu : st.unity_connection = some ch
  · simp [hu, hnd.not_mem_erase]
  · simp [hu, hnd.not_mem_erase]

/-- Concrete manager used by the C8 witness: two connected channels, channel
2 is the executor, one request pending. -/
def disconnectDemoState : ManagerState :=
  { active_connections := [2, 5]
    unity_connection := some 2
    pending_requests := [("r1", ⟨0, false⟩)]
    futures := [(0, FutState.unresolved)] }

/-- C8 witness: disconnecting the executor of a concrete manager with one
pending request. -/
theorem disconnect_frame_witness :
    (2 : Nat) ∈ disconnectDemoState.active_connections ∧
    ((2 : Nat) ∉ (disconnect disconnectDemoState 2).active_connections ∧
      (disconnect disconnectDemoState 2).unity_connection =
        (if disconnectDemoState.unity_connection = some 2 then none
          else disconnectDemoState.unity_connection) ∧
      (disconnect disconnectDemoState 2).pending_requests =
        disconnectDemoState.pending_requests ∧
      (disconnect disconnectDemoState 2).futures = disconnectDemoState.futures ∧
      (disconnect disconnectDemoState 2).sent = disconnectDemoState.sent) :=
  ⟨by decide, disconnect_frame disconnectDemoState 2 (by decide) (by decide)⟩

/-- C1 (claim): delivering a response whose id matches a pending request
while its waiter is still unresolved resolves that waiter with exactly the
response payload and removes the identifier from the pending map in the
same step; delivering a second response with the same identifier afterwards
is a no-op on the state. -/
theorem handle_unity_response_resolves (st : ManagerState)
    (resp resp₂ : Msg) (request_id : String) (entry : PendingEntry)
    (hid : resp.id = some request_id)
    (hid₂ : resp₂.id = some request_id)
    (hpend : dictLookup st.pending_requests request_id = some entry)
    (hfut : dictLookup st.futures entry.fid = some FutState.unresolved) :
    dictLookup (handleUnityResponse st resp).futures entry.fid =
      some (FutState.resolved resp) ∧
    dictLookup (handleUnityResponse st resp).pending_requests request_id =
      none ∧
    handleUnityResponse (handleUnityResponse st resp) resp₂ =
      handleUnityResponse st resp := by
  have hstep : handleUnityResponse st resp =
      { st with
        pending_requests := dictErase st.pending_requests request_id,
        futures := dictInsert st.futures entry.fid (FutState.resolved resp) } := by
    simp [handleUnityResponse, hid, hpend, hfut]
  rw [hstep]
  refine ⟨?_, ?_, ?_⟩
  · simpa using dictLookup_insert_self st.futures entry.fid (FutState.resolved resp)
  · simpa using dictLookup_erase_self st.pending_requests request_id
  · simp [handleUnityResponse, hid₂, dictLookup_erase_self]

/-- Concrete manager with one pending request `"r1"` waiting on future 0. -/
def pendingDemoState : ManagerState :=
  { unity_connection := some 0
    pending_requests := [("r1", ⟨0, false⟩)]
    futures := [(0, FutState.unresolved)] }

/-- Concrete matching response for `"r1"`. -/
def respDemo : Msg := { id := some "r1", success := some true, data := some 1 }

/-- Concrete duplicate response carrying the same identifier `"r1"`. -/
def respDemoDup : Msg := { id := some "r1", success := some false }

/-- C1 witness: the concrete response resolves the concrete pending request
and a duplicate afterwards changes nothing. -/
theorem handle_unity_response_resolves_witness :
    dictLookup (handleUnityResponse pendingDemoState respDemo).futures 0 =
      some (FutState.resolved respDemo) ∧
    dictLookup (handleUnityResponse pendingDemoState respDemo).pending_requests
      "r1" = none ∧
    handleUnityResponse (handleUnityResponse pendingDemoState respDemo)
      respDemoDup = handleUnityResponse pendingDemoState respDemo :=
  handle_unity_response_resolves pendingDemoState respDemo respDemoDup "r1"
    ⟨0, false⟩ rfl rfl (by decide) (by decide)

/-- C2 (claim): when the deadline fires for a request whose identifier is
still pending and whose waiter is unresolved, the deadline event applies the
timeout transition, the caller observes the fixed
`"Request to Unity timed out"` failure, the waiter is resolved as timed
out, and the identifier is absent from the pending map immediately
afterwards; the deadline is the fixed 30-time-unit timeout. -/
theorem send_to_unity_timeout_resolves (st : ManagerState)
    (request_id : String) (entry : PendingEntry)
    (hpend : dictLookup st.pending_requests request_id = some entry)
    (hfut : dictLookup st.futures entry.fid = some FutState.unresolved) :
    requestTimeoutSeconds = 30 ∧
    applyEvent st (.evTimeout request_id entry.fid) =
      (sendToUnityTimeout st request_id entry.fid).1 ∧
    (sendToUnityTimeout st request_id entry.fid).2 =
      "Request to Unity timed out" ∧
    dictLookup (sendToUnityTimeout st request_id entry.fid).1.futures
      entry.fid = some FutState.timedOut ∧
    dictLookup (sendToUnityTimeout st request_id entry.fid).1.pending_requests
      request_id = none := by
  refine ⟨rfl, ?_, ?_, ?_, ?_⟩
  · simp [applyEvent, hfut]
  · simp [sendToUnityTimeout, hpend]
  · simp [sendToUnityTimeout, hpend, dictLookup_insert_self]
  · simp [sendToUnityTimeout, hpend, dictLookup_erase_self]

/-- C2 witness: the deadline fires on the concrete pending request. -/
theorem send_to_unity_timeout_resolves_witness :
    requestTimeoutSeconds = 30 ∧
    applyEvent pendingDemoState (.evTimeout "r1" 0) =
      (sendToUnityTimeout pendingDemoState "r1" 0).1 ∧
    (sendToUnityTimeout pendingDemoState "r1" 0).2 =
      "Request to Unity timed out" ∧
    dictLookup (sendToUnityTimeout pendingDemoState "r1" 0).1.futures 0 =
      some FutState.timedOut ∧
    dictLookup (sendToUnityTimeout pendingDemoState "r1" 0).1.pending_requests
      "r1" = none :=
  send_to_unity_timeout_resolves pendingDemoState "r1" ⟨0, false⟩
    (by decide) (by decide)

/-- C5 (claim): with two distinct identifiers pending on distinct waiters,
delivering a response carrying the second identifier resolves only the
second waiter and removes only the second pending entry; the first
identifier's entry and its unresolved waiter are unchanged. -/
theorem response_resolves_only_its_request (st : ManagerState) (resp : Msg)
    (r1 r2 : String) (e1 e2 : PendingEntry)
    (hne : r1 ≠ r2) (hfid : e1.fid ≠ e2.fid)
    (h1 : dictLookup st.pending_requests r1 = some e1)
    (h2 : dictLookup st.pending_requests r2 = some e2)
    (hf2 : dictLookup st.futures e2.fid = some FutState.unresolved)
    (hf1 : dictLookup st.futures e1.fid = some FutState.unresolved)
    (hid : resp.id = some r2) :
    dictLookup (handleUnityResponse st resp).futures e2.fid =
      some (FutState.resolved resp) ∧
    dictLookup (handleUnityResponse st resp).pending_requests r2 = none ∧
    dictLookup (handleUnityResponse st resp).pending_requests r1 = some e1 ∧
    dictLookup (handleUnityResponse st resp).futures e1.fid =
      some FutState.unresolved := by
  have hstep : handleUnityResponse st resp =
      { st with
        pending_requests := dictErase st.pending_requests r2,
        futures := dictInsert st.futures e2.fid (FutState.resolved resp) } := by
    simp [handleUnityResponse, hid, h2, hf2]
  rw [hstep]
  refine ⟨?_, ?_, ?_, ?_⟩
  · simpa using dictLookup_insert_self st.futures e2.fid (FutState.resolved resp)
  · simpa using dictLookup_erase_self st.pending_requests r2
  · simpa [h1] using dictLookup_erase_ne st.pending_requests r2 r1 hne
  · simpa [hf1] using
      dictLookup_insert_ne st.futures e2.fid e1.fid (FutState.resolved resp) hfid

/-- Concrete manager with requests `"r1"` and `"r2"` pending on futures
0 and 1. -/
def twoPendingDemoState : ManagerState :=
  { unity_connection := some 0
    pending_requests := [("r1", ⟨0, false⟩), ("r2", ⟨1, false⟩)]
    futures := [(0, FutState.unresolved), (1, FutState.unresolved)]
    nextFid := 2 }

/-- Concrete response for `"r2"`. -/
def respDemoR2 : Msg := { id := some "r2", success := some true }

/-- C5 witness: delivering `"r2"`'s response to the concrete two-request
manager resolves only `"r2"`. -/
theorem response_resolves_only_its_request_witness :
    dictLookup (handleUnityResponse twoPendingDemoState respDemoR2).futures 1 =
      some (FutState.resolved respDemoR2) ∧
    dictLookup (handleUnityResponse twoPendingDemoState
      respDemoR2).pending_requests "r2" = none ∧
    dictLookup (handleUnityResponse twoPendingDemoState
      respDemoR2).pending_requests "r1" = some ⟨0, false⟩ ∧
    dictLookup (handleUnityResponse twoPendingDemoState respDemoR2).futures 0 =
      some FutState.unresolved :=
  response_resolves_only_its_request twoPendingDemoState respDemoR2 "r1" "r2"
    ⟨0, false⟩ ⟨1, false⟩ (by decide) (by decide) (by decide) (by decide)
    (by decide) (by decide) rfl

/-- State after two channels both perform the `"unity"` handshake: channel 2
has replaced channel 1 as `unity_connection`, but channel 1's endpoint loop
still holds `client_type = "unity"`. -/
def supersededExecutorState : ManagerState :=
  connect (connect {} 1 "unity") 2 "unity"

/-- Websocket session of channel 1, whose handshake declared
`client_type = "unity"`. -/
def supersededSession : WsSession := ⟨1, "unity"⟩

/-- C7 counterexample: the claim that a message is routed to the resolve
path if and only if its channel is the current executor at arrival time is
false — after channel 2 supersedes channel 1 as executor, channel 1's
messages are still routed to `handle_unity_response`, because the endpoint
branches on the handshake-captured `client_type`, never on
`manager.unity_connection`. -/
theorem route_not_by_current_executor :
    ¬ (sessionRoute supersededSession = Route.toResolve ↔
        supersededExecutorState.unity_connection =
          some supersededSession.ch) := by
  decide

/-- C7 amended: an inbound message is routed to the resolve path if and
only if its session's handshake declared `client_type = "unity"`,
regardless of whether the channel is still the current executor; every
other session's messages go through the submit path. -/
theorem route_by_handshake_role (s : WsSession) :
    sessionRoute s = Route.toResolve ↔ s.client_type = "unity" := by
  by_cases h : s.client_type = "unity" <;>
    simp [sessionRoute, routeMessage, h]

/-- Response the executor sends in the C9 counterexample: it carries the
request's identifier but no `success` field. -/
def respNoSuccess : Msg := { id := some "r1" }

/-- C9 counterexample: the claim that every externally callable operation
hands its caller an outcome object containing a success flag is false on the
websocket path — a forwarded request whose executor response lacks the
`success` field is relayed verbatim by `websocket.send_json(response)`, so
the client's reply has no success flag. The concrete trace: an executor
connects, a client request `"r1"` is forwarded, the executor answers
without `success`, and the relayed reply's `success` field is absent. -/
theorem ws_reply_can_lack_success_flag :
    (wsClientStep (connect {} 0 "unity")
        { id := some "r1", function := some "ping" }).2 =
      ClientDisposition.forwarded "r1" ∧
    dictLookup (handleUnityResponse
        (wsClientStep (connect {} 0 "unity")
          { id := some "r1", function := some "ping" }).1
        respNoSuccess).futures 0 =
      some (FutState.resolved respNoSuccess) ∧
    (wsRelayReply (some "r1") (.ok respNoSuccess)).success = none := by
  decide

/-- C9 amended: every failure raised during submission is converted into a
success-false outcome carrying the error text, on the HTTP routes and on
the websocket path alike, and an HTTP route always returns a
`FunctionResponse` (whose `success` field is mandatory, with a response
lacking it converted to a success-false validation failure); but a
successful websocket reply relays the executor's response verbatim, so it
contains a success flag only when the executor's response carried one. -/
theorem caller_outcome_shapes (e : String) (origId : Option String)
    (resp : Msg) (b : Bool) (hb : resp.success = some b) :
    httpRouteOutcome (.error e) = { success := false, error := some e } ∧
    httpRouteOutcome (.ok resp) =
      { success := b, message := resp.message, data := resp.data,
        error := resp.error } ∧
    httpRouteOutcome (.ok { resp with success := none }) =
      { success := false,
        error := some
          "validation error for FunctionResponse: success field required" } ∧
    wsRelayReply origId (.error e) =
      { id := origId, success := some false, error := some e } ∧
    wsRelayReply origId (.ok resp) = resp := by
  refine ⟨rfl, ?_, ?_, rfl, rfl⟩
  · simp [httpRouteOutcome, parseFunctionResponse, hb]
  · simp [httpRouteOutcome, parseFunctionResponse]

/-- C9 amended witness: the outcome shapes at a concrete error text and a
concrete well-formed executor response. -/
theorem caller_outcome_shapes_witness :
    httpRouteOutcome (.error "No Unity connection available") =
      { success := false, error := some "No Unity connection available" } ∧
    httpRouteOutcome (.ok respDemo) =
      { success := true, message := respDemo.message, data := respDemo.data,
        error := respDemo.error } ∧
    httpRouteOutcome (.ok { respDemo with success := none }) =
      { success := false,
        error := some
          "validation error for FunctionResponse: success field required" } ∧
    wsRelayReply (some "r1") (.error "No Unity connection available") =
      { id := some "r1", success := some false,
        error := some "No Unity connection available" } ∧
    wsRelayReply (some "r1") (.ok respDemo) = respDemo :=
  caller_outcome_shapes "No Unity connection available" (some "r1") respDemo
    true rfl

theorem mem_dictInsert_nodup {K V : Type} [DecidableEq K]
    {d : List (K × V)} {k : K} {v : V} {p : K × V}
    (hnd : (d.map Prod.fst).Nodup) (h : p ∈ dictInsert d k v) :
    p = (k, v) ∨ (p ∈ d ∧ p.1 ≠ k) := by
  induction d with
  | nil => simpa [dictInsert] using h
  | cons q rest ih =>
    obtain ⟨k', v'⟩ := q
    simp only [List.map_cons, List.nodup_cons] at hnd
    by_cases hk : k' = k
    · subst hk
      simp only [dictInsert, if_pos rfl] at h
      rcases List.mem_cons.mp h with h | h
      · exact Or.inl h
      · refine Or.inr ⟨List.mem_cons_of_mem _ h, fun hpk => ?_⟩
        exact hnd.1 (hpk ▸ List.mem_map_of_mem Prod.fst h)
    · simp only [dictInsert, if_neg hk] at h
      rcases List.mem_cons.mp h with h | h
      · subst h
        exact Or.inr ⟨List.mem_cons_self _ _, hk⟩
      · rcases ih hnd.2 h with h1 | h1
        · exact Or.inl h1
        · exact Or.inr ⟨List.mem_cons_of_mem _ h1.1, h1.2⟩

theorem handleUnityResponse_preserves_other_future (st : ManagerState)
    (resp : Msg) (fid : Nat)
    (h : ∀ p ∈ st.pending_requests, p.2.fid ≠ fid) :
    dictLookup (handleUnityResponse st resp).futures fid =
      dictLookup st.futures fid := by
  cases hid : resp.id with
  | none => simp [handleUnityResponse, hid]
  | some rid =>
    cases hl : dictLookup st.pending_requests rid with
    | none => simp [handleUnityResponse, hid, hl]
    | some entry =>
      have hne : entry.fid ≠ fid := h (rid, entry) (dictLookup_mem hl)
      cases hf : dictLookup st.futures entry.fid with
      | none => simp [handleUnityResponse, hid, hl, hf]
      | some fs =>
        cases fs with
        | unresolved =>
          simp only [handleUnityResponse, hid, hl, hf]
          exact dictLookup_insert_ne st.futures entry.fid fid _ (Ne.symm hne)
        | resolved m => simp [handleUnityResponse, hid, hl, hf]
        | timedOut => simp [handleUnityResponse, hid, hl, hf]

theorem sendToUnityTimeout_marks (st : ManagerState) (request_id : String)
    (fid : Nat) :
    dictLookup (sendToUnityTimeout st request_id fid).1.futures fid =
      some FutState.timedOut := by
  simp only [sendToUnityTimeout]
  split
  · exact dictLookup_insert_self st.futures fid FutState.timedOut
  · exact dictLookup_insert_self st.futures fid FutState.timedOut

/-- C10 (claim): submitting a message whose caller-supplied id equals a
currently pending identifier makes the pending map point that identifier at
the new call's fresh waiter, replacing the earlier entry; the earlier waiter
is then unreachable from the pending map, so delivering any response leaves
it unresolved, and only its own timeout transition finishes it — pending-id
uniqueness is not enforced for caller-supplied ids. -/
theorem caller_supplied_id_replaces (st st' : ManagerState)
    (msg resp : Msg) (request_id rid' : String) (e1 : PendingEntry)
    (hnd : (st.pending_requests.map Prod.fst).Nodup)
    (hid : msg.id = some request_id)
    (_hpend : dictLookup st.pending_requests request_id = some e1)
    (hf1 : dictLookup st.futures e1.fid = some FutState.unresolved)
    (hlt : e1.fid < st.nextFid)
    (honly : ∀ p ∈ st.pending_requests, p.2.fid = e1.fid → p.1 = request_id)
    (hok : sendToUnityStart st msg = .ok (st', rid')) :
    rid' = request_id ∧
    dictLookup st'.pending_requests request_id = some ⟨st.nextFid, false⟩ ∧
    st.nextFid ≠ e1.fid ∧
    dictLookup st'.futures e1.fid = some FutState.unresolved ∧
    dictLookup (handleUnityResponse st' resp).futures e1.fid =
      some FutState.unresolved ∧
    dictLookup (sendToUnityTimeout (handleUnityResponse st' resp) request_id
      e1.fid).1.futures e1.fid = some FutState.timedOut := by
  cases hu : st.unity_connection with
  | none => simp [sendToUnityStart, hu] at hok
  | some uch =>
    simp only [sendToUnityStart, hu, hid, Option.isNone_some,
      Except.ok.injEq, Prod.mk.injEq] at hok
    obtain ⟨hst', hrid⟩ := hok
    subst hrid
    have hfid_ne : st.nextFid ≠ e1.fid := (Nat.ne_of_lt hlt).symm
    have hpend' : st'.pending_requests =
        dictInsert st.pending_requests request_id ⟨st.nextFid, false⟩ := by
      rw [← hst']
    have hfut' : st'.futures =
        dictInsert st.futures st.nextFid FutState.unresolved := by
      rw [← hst']
    have hlook : dictLookup st'.futures e1.fid = some FutState.unresolved := by
      rw [hfut']
      rw [dictLookup_insert_ne st.futures st.nextFid e1.fid _ (Ne.symm hfid_ne)]
      exact hf1
    have hother : ∀ p ∈ st'.pending_requests, p.2.fid ≠ e1.fid := by
      intro p hp
      rw [hpend'] at hp
      rcases mem_dictInsert_nodup hnd hp with h1 | h1
      · subst h1
        exact hfid_ne
      · intro hcontra
        exact h1.2 (honly p h1.1 hcontra)
    refine ⟨rfl, ?_, hfid_ne, hlook, ?_, ?_⟩
    · rw [hpend']
      exact dictLookup_insert_self st.pending_requests request_id
        ⟨st.nextFid, false⟩
    · rw [handleUnityResponse_preserves_other_future st' resp e1.fid hother]
      exact hlook
    · exact sendToUnityTimeout_marks _ request_id e1.fid

/-- Concrete manager for the C10 witness: request `"r1"` pending on future
0, allocation counter at 1. -/
def replaceDemoState : ManagerState :=
  { unity_connection := some 0
    pending_requests := [("r1", ⟨0, false⟩)]
    futures := [(0, FutState.unresolved)]
    nextFid := 1 }

/-- Message of the second call, reusing the caller-supplied id `"r1"`. -/
def reuseIdMsg : Msg := { id := some "r1", function := some "ping" }

/-- Manager after the second call replaces `"r1"` in the pending map. -/
def replacedDemoState : ManagerState :=
  { unity_connection := some 0
    pending_requests := [("r1", ⟨1, false⟩)]
    futures := [(0, FutState.unresolved), (1, FutState.unresolved)]
    nextFid := 2
    sent := [(0, reuseIdMsg)] }

/-- C10 witness: the concrete second call with id `"r1"` replaces the
pending entry; the first waiter stays unresolved through a matching
response delivery and is finished by its own timeout. -/
theorem caller_supplied_id_replaces_witness :
    "r1" = "r1" ∧
    dictLookup replacedDemoState.pending_requests "r1" = some ⟨1, false⟩ ∧
    replaceDemoState.nextFid ≠ 0 ∧
    dictLookup replacedDemoState.futures 0 = some FutState.unresolved ∧
    dictLookup (handleUnityResponse replacedDemoState respDemoDup).futures 0 =
      some FutState.unresolved ∧
    dictLookup (sendToUnityTimeout
      (handleUnityResponse replacedDemoState respDemoDup) "r1" 0).1.futures 0 =
      some FutState.timedOut :=
  caller_supplied_id_replaces replaceDemoState replacedDemoState reuseIdMsg
    respDemoDup "r1" "r1" ⟨0, false⟩ (by decide) rfl (by decide) (by decide)
    (by decide) (by decide) rfl

/-- Ghost invariant: every broker-generated identifier in the pending map
was produced by `mkGenId` from an allocation index below the current
counter. -/
def pendingGenWellFormed (st : ManagerState) : Prop :=
  ∀ p ∈ st.pending_requests, p.2.generated = true →
    ∃ k, k < st.nextFid ∧ p.1 = mkGenId k

/-- Invariant: the pending map's keys — the simultaneously pending
correlation identifiers — are pairwise distinct. -/
def pendingKeysNodup (st : ManagerState) : Prop :=
  (st.pending_requests.map Prod.fst).Nodup

theorem pendingInv_congr (st st' : ManagerState)
    (hp : st'.pending_requests = st.pending_requests)
    (hn : st'.nextFid = st.nextFid)
    (h1 : pendingGenWellFormed st) (h2 : pendingKeysNodup st) :
    pendingGenWellFormed st' ∧ pendingKeysNodup st' := by
  constructor
  · intro p hmem hg
    rw [hp] at hmem
    rw [hn]
    exact h1 p hmem hg
  · show (st'.pending_requests.map Prod.fst).Nodup
    rw [hp]
    exact h2

theorem pendingInv_mono (st st' : ManagerState)
    (hp : st'.pending_requests.Sublist st.pending_requests)
    (hn : st'.nextFid = st.nextFid)
    (h1 : pendingGenWellFormed st) (h2 : pendingKeysNodup st) :
    pendingGenWellFormed st' ∧ pendingKeysNodup st' := by
  constructor
  · intro p hmem hg
    rw [hn]
    exact h1 p (hp.subset hmem) hg
  · exact h2.sublist (hp.map Prod.fst)

theorem broker_invariants_applyEvent (st : ManagerState) (e : Event)
    (h1 : pendingGenWellFormed st) (h2 : pendingKeysNodup st) :
    pendingGenWellFormed (applyEvent st e) ∧
    pendingKeysNodup (applyEvent st e) := by
  cases e with
  | evConnect ch t =>
    refine pendingInv_congr st _ ?_ ?_ h1 h2 <;>
      by_cases ht : t = "unity" <;> simp [applyEvent, connect, ht]
  | evDisconnect ch =>
    refine pendingInv_congr st _ ?_ ?_ h1 h2 <;>
      simp [applyEvent, disconnect, apply_ite ManagerState.pending_requests,
        apply_ite ManagerState.nextFid]
  | evSend msg =>
    cases hsend : sendToUnityStart st msg with
    | error err =>
      have happ : applyEvent st (.evSend msg) = st := by
        simp [applyEvent, hsend]
      rw [happ]
      exact ⟨h1, h2⟩
    | ok pr =>
      obtain ⟨st', rid⟩ := pr
      have happ : applyEvent st (.evSend msg) = st' := by
        simp [applyEvent, hsend]
      rw [happ]
      cases hu : st.unity_connection with
      | none => simp [sendToUnityStart, hu] at hsend
      | some uch =>
        cases hid : msg.id with
        | none =>
          simp only [sendToUnityStart, hu, hid, Option.isNone_none,
            Except.ok.injEq, Prod.mk.injEq] at hsend
          obtain ⟨hst', hrid⟩ := hsend
          subst hst'
          constructor
          · intro p hp hg
            rcases mem_dictInsert hp with rfl | hmem
            · exact ⟨st.nextFid, Nat.lt_succ_self _, rfl⟩
            · obtain ⟨k, hk, he⟩ := h1 p hmem hg
              exact ⟨k, Nat.lt_succ_of_lt hk, he⟩
          · exact keys_nodup_dictInsert _ _ h2
        | some i =>
          simp only [sendToUnityStart, hu, hid, Option.isNone_some,
            Except.ok.injEq, Prod.mk.injEq] at hsend
          obtain ⟨hst', hrid⟩ := hsend
          subst hst'
          constructor
          · intro p hp hg
            rcases mem_dictInsert hp with rfl | hmem
            · simp at hg
            · obtain ⟨k, hk, he⟩ := h1 p hmem hg
              exact ⟨k, Nat.lt_succ_of_lt hk, he⟩
          · exact keys_nodup_dictInsert _ _ h2
  | evResponse resp =>
    have happ : applyEvent st (.evResponse resp) = handleUnityResponse st resp :=
      rfl
    rw [happ]
    cases hid : resp.id with
    | none =>
      simp only [handleUnityResponse, hid]
      exact ⟨h1, h2⟩
    | some rid =>
      cases hl : dictLookup st.pending_requests rid with
      | none =>
        simp only [handleUnityResponse, hid, hl]
        exact ⟨h1, h2⟩
      | some entry =>
        have hps : (handleUnityResponse st resp).pending_requests =
            dictErase st.pending_requests rid ∧
            (handleUnityResponse st resp).nextFid = st.nextFid := by
          cases hf : dictLookup st.futures entry.fid with
          | none => simp [handleUnityResponse, hid, hl, hf]
          | some fs => cases fs <;> simp [handleUnityResponse, hid, hl, hf]
        refine pendingInv_mono st _ ?_ hps.2 h1 h2
        rw [hps.1]
        exact dictErase_sublist _ _
  | evTimeout rid fid =>
    cases hf : dictLookup st.futures fid with
    | none =>
      simp only [applyEvent, hf]
      exact ⟨h1, h2⟩
    | some fs =>
      cases fs with
      | unresolved =>
        have happ : applyEvent st (.evTimeout rid fid) =
            (sendToUnityTimeout st rid fid).1 := by
          simp [applyEvent, hf]
        rw [happ]
        by_cases hc : (dictLookup st.pending_requests rid).isSome
        · have hps : (sendToUnityTimeout st rid fid).1.pending_requests =
              dictErase st.pending_requests rid ∧
              (sendToUnityTimeout st rid fid).1.nextFid = st.nextFid := by
            simp [sendToUnityTimeout, hc]
          refine pendingInv_mono st _ ?_ hps.2 h1 h2
          rw [hps.1]
          exact dictErase_sublist _ _
        · have hps : (sendToUnityTimeout st rid fid).1.pending_requests =
              st.pending_requests ∧
              (sendToUnityTimeout st rid fid).1.nextFid = st.nextFid := by
            simp [sendToUnityTimeout, hc]
          exact pendingInv_congr st _ hps.1 hps.2 h1 h2
      | resolved m =>
        simp only [applyEvent, hf]
        exact ⟨h1, h2⟩
      | timedOut =>
        simp only [applyEvent, hf]
        exact ⟨h1, h2⟩

theorem broker_invariants_foldl (evs : List Event) (st : ManagerState)
    (h1 : pendingGenWellFormed st) (h2 : pendingKeysNodup st) :
    pendingGenWellFormed (evs.foldl applyEvent st) ∧
    pendingKeysNodup (evs.foldl applyEvent st) := by
  induction evs generalizing st with
  | nil => exact ⟨h1, h2⟩
  | cons e rest ih =>
    have h := broker_invariants_applyEvent st e h1 h2
    simpa [List.foldl] using ih (applyEvent st e) h.1 h.2

theorem broker_invariants_run (evs : List Event) :
    pendingGenWellFormed (run evs) ∧ pendingKeysNodup (run evs) := by
  refine broker_invariants_foldl evs {} ?_ ?_
  · intro p hp hg
    cases hp
  · exact List.nodup_nil

/-- C4 (claim): in any reachable manager state the simultaneously pending
correlation identifiers are pairwise distinct, and the identifier generated
for a message that carries no id never equals a pending broker-generated
identifier — a generated identifier is not reused while the pending request
it was generated for is outstanding. -/
theorem generated_ids_distinct (evs : List Event) (msg : Msg)
    (st' : ManagerState) (rid : String)
    (hnoid : msg.id = none)
    (hok : sendToUnityStart (run evs) msg = .ok (st', rid)) :
    ((run evs).pending_requests.map Prod.fst).Nodup ∧
    (dictLookup (run evs).pending_requests rid).map PendingEntry.generated ≠
      some true := by
  obtain ⟨h1, h2⟩ := broker_invariants_run evs
  refine ⟨h2, ?_⟩
  have hrid : rid = mkGenId (run evs).nextFid := by
    cases hu : (run evs).unity_connection with
    | none => simp [sendToUnityStart, hu] at hok
    | some uch =>
      simp only [sendToUnityStart, hu, hnoid, Except.ok.injEq,
        Prod.mk.injEq] at hok
      exact hok.2.symm
  intro hcontra
  cases hl : dictLookup (run evs).pending_requests rid with
  | none =>
    rw [hl] at hcontra
    simp at hcontra
  | some entry =>
    rw [hl] at hcontra
    simp only [Option.map_some'] at hcontra
    have hgen : entry.generated = true := Option.some.inj hcontra
    obtain ⟨k, hk, hkey⟩ := h1 (rid, entry) (dictLookup_mem hl) hgen
    have hke : (run evs).nextFid = k :=
      mkGenId_injective (hrid.symm.trans hkey)
    omega

/-- Events for the C4 witness: an executor connects, then a first id-less
request is submitted, whose generated identifier `"obj"` is pending. -/
def genDemoEvs : List Event :=
  [.evConnect 1 "unity", .evSend { function := some "ping" }]

/-- State after a second id-less submission against `run genDemoEvs`: its
generated identifier `"obj*"` is distinct from the pending `"obj"`. -/
def genDemoNextState : ManagerState :=
  { active_connections := [1]
    unity_connection := some 1
    pending_requests := [("obj", ⟨0, true⟩), ("obj*", ⟨1, true⟩)]
    futures := [(0, FutState.unresolved), (1, FutState.unresolved)]
    nextFid := 2
    sent := [(1, { id := some "obj", function := some "ping" }),
             (1, { id := some "obj*", function := some "pong" })] }

/-- C4 witness: after one generated id is pending, a second id-less
submission generates a fresh identifier that is not pending. -/
theorem generated_ids_distinct_witness :
    ((run genDemoEvs).pending_requests.map Prod.fst).Nodup ∧
    (dictLookup (run genDemoEvs).pending_requests
      "obj*").map PendingEntry.generated ≠ some true :=
  generated_ids_distinct genDemoEvs { function := some "pong" }
    genDemoNextState "obj*" rfl rfl

end WindsurfUnityMcp
